import Mathlib

/-!
Verification of the ai-gateway core against its specification.

The development shallowly embeds two source files:
* `core/src/types/threads.rs` — the positional content-part codec
  (`MessageContentPart`, its custom `Deserialize` visitor and the
  `From<MessageContentPart> for Value` encoder), the custom `Message`
  deserializer (tool-call normalization), and the
  `From<Message> for InnerMessage` conversion.
* `core/src/executor/chat_completion/basic_executor.rs` — the event relay
  loop and the pure tail of `execute` (finish-reason resolution, usage
  aggregation, response assembly).

JSON values are modelled by the inductive `Json` below; the semantics of
the serde_json library (`from_str`, `from_value`) is modelled by an
executable JSON parser over character lists.  Numbers are modelled as
rationals (serde_json parses them as i64/u64/f64; no claim under
verification compares numeric values, only parse success).
-/

namespace AiGateway

/-- Model of a serde_json `Value`: null, booleans, numbers (as rationals),
strings, arrays and objects (ordered association lists). -/
inductive Json where
  | null : Json
  | bool (flag : Bool) : Json
  | num (q : Rat) : Json
  | str (text : String) : Json
  | arr (items : List Json) : Json
  | obj (entries : List (String × Json)) : Json

/-- First-match lookup among the members of an object. -/
def lookupPairs : List (String × Json) → String → Option Json
  | [], _ => none
  | (k, v) :: rest, key => if k = key then some v else lookupPairs rest key

/-- Field lookup on a JSON value: only objects have fields. -/
def Json.lookup : Json → String → Option Json
  | Json.obj members, key => lookupPairs members key
  | _, _ => none

/-- True exactly on JSON strings. -/
def Json.isString : Json → Bool
  | Json.str _ => true
  | _ => false

/-- True exactly on JSON arrays. -/
def Json.isArray : Json → Bool
  | Json.arr _ => true
  | _ => false

/-- Number of elements when the value is an array. -/
def Json.arrayLength : Json → Option Nat
  | Json.arr elems => some elems.length
  | _ => none

/-! ### A JSON text parser, modelling `serde_json::from_str` -/

/-- JSON insignificant whitespace characters. -/
def isJsonWs (c : Char) : Bool :=
  c = ' ' || c = '\t' || c = '\n' || c = '\r'

/-- Drop leading JSON whitespace. -/
def skipWs (input : List Char) : List Char :=
  match input with
  | c :: more => if isJsonWs c then skipWs more else input
  | [] => []

/-- Value of a decimal digit character (code points 48-57). -/
def digitVal (c : Char) : Option Nat :=
  let n := c.toNat
  if 48 ≤ n && n ≤ 57 then some (n - 48) else none

/-- Value of a hexadecimal digit character, via code points: digits are
48-57, lowercase letters 97-102, uppercase letters 65-70. -/
def hexDigitVal (c : Char) : Option Nat :=
  let n := c.toNat
  if 48 ≤ n && n ≤ 57 then some (n - 48)
  else if 97 ≤ n && n ≤ 102 then some (n - 87)
  else if 65 ≤ n && n ≤ 70 then some (n - 55)
  else none

/-- Combine four hexadecimal digits into a code unit. -/
def hex4 (c1 c2 c3 c4 : Char) : Option Nat :=
  (hexDigitVal c1).bind fun a =>
    (hexDigitVal c2).bind fun b =>
      (hexDigitVal c3).bind fun c =>
        (hexDigitVal c4).map fun d => 4096 * a + 256 * b + 16 * c + d

/-- High-surrogate code units occupy 0xD800 to 0xDBFF. -/
def isHighSurrogate (n : Nat) : Bool :=
  55296 ≤ n && n < 56320

/-- Low-surrogate code units occupy 0xDC00 to 0xDFFF. -/
def isLowSurrogate (n : Nat) : Bool :=
  56320 ≤ n && n < 57344

/-- Combine a surrogate pair into its code point. -/
def combineSurrogates (hi lo : Nat) : Nat :=
  65536 + 1024 * (hi - 55296) + (lo - 56320)

/-- Single-character JSON escape sequences. -/
def escChar (c : Char) : Option Char :=
  match c with
  | 'n' => some (Char.ofNat 10)
  | 't' => some (Char.ofNat 9)
  | 'r' => some (Char.ofNat 13)
  | 'b' => some (Char.ofNat 8)
  | 'f' => some (Char.ofNat 12)
  | '"' => some c
  | '\\' => some c
  | '/' => some c
  | _ => none

/-- Parse the body of a JSON string after the opening quote, returning the
decoded characters and the remaining input after the closing quote.
Handles escapes, `\uXXXX` code units and surrogate pairs; rejects raw
control characters and lone surrogates, as serde_json does. -/
def parseJString : List Char → Option (List Char × List Char)
  | [] => none
  | '"' :: tail => some ([], tail)
  | '\\' :: 'u' :: h1 :: h2 :: h3 :: h4 :: tail =>
    match hex4 h1 h2 h3 h4 with
    | none => none
    | some unit1 =>
      if isHighSurrogate unit1 then
        match tail with
        | '\\' :: 'u' :: g1 :: g2 :: g3 :: g4 :: tail2 =>
          match hex4 g1 g2 g3 g4 with
          | none => none
          | some unit2 =>
            if isLowSurrogate unit2 then
              (parseJString tail2).map fun found =>
                (Char.ofNat (combineSurrogates unit1 unit2) :: found.1, found.2)
            else none
        | _ => none
      else if isLowSurrogate unit1 then none
      else
        (parseJString tail).map fun found => (Char.ofNat unit1 :: found.1, found.2)
  | '\\' :: e :: tail =>
    match escChar e with
    | none => none
    | some decoded =>
      (parseJString tail).map fun found => (decoded :: found.1, found.2)
  | c :: tail =>
    if c.toNat < 32 then none
    else (parseJString tail).map fun found => (c :: found.1, found.2)

/-- Greedily take decimal digit values from the front of the input. -/
def takeDigits (input : List Char) : List Nat × List Char :=
  match input with
  | c :: more =>
    match digitVal c with
    | some d =>
      let picked := takeDigits more
      (d :: picked.1, picked.2)
    | none => ([], input)
  | [] => ([], [])

/-- Value of a big-endian list of decimal digit values. -/
def digitsToNat (ds : List Nat) : Nat :=
  ds.foldl (fun acc d => 10 * acc + d) 0

/-- Parse the exponent part of a JSON number (after `e`/`E`), requiring
at least one digit after the optional sign. -/
def parseExp (cs : List Char) : Option Int × List Char :=
  let signed : Int × List Char :=
    match cs with
    | '+' :: more => (1, more)
    | '-' :: more => (-1, more)
    | _ => (1, cs)
  match takeDigits signed.2 with
  | ([], _) => (none, cs)
  | (ds, after) => (some (signed.1 * (digitsToNat ds : Int)), after)

/-- Parse the magnitude of a JSON number (everything after an optional
leading minus) into a rational. -/
def parseNumMag (cs : List Char) : Option (Rat × List Char) :=
  match takeDigits cs with
  | ([], _) => none
  | (intDigits, afterInt) =>
    let fracStage : Option (List Nat) × List Char :=
      match afterInt with
      | '.' :: more =>
        let picked := takeDigits more
        (some picked.1, picked.2)
      | _ => (none, afterInt)
    match fracStage.1 with
    | some [] => none
    | fracDigits =>
      let mag : Rat := (digitsToNat intDigits : Nat) +
        (match fracDigits with
         | some fds => (digitsToNat fds : Rat) / ((10 : Rat) ^ fds.length)
         | none => 0)
      let expStage : Option Int × List Char :=
        match fracStage.2 with
        | 'e' :: more => parseExp more
        | 'E' :: more => parseExp more
        | _ => (some 0, fracStage.2)
      match expStage.1 with
      | none => none
      | some e => some (mag * (10 : Rat) ^ e, expStage.2)

/-- Parse a JSON number into a rational: an optional leading minus
followed by the magnitude. -/
def parseNumber (cs : List Char) : Option (Rat × List Char) :=
  match cs with
  | '-' :: more => (parseNumMag more).map fun found => (-found.1, found.2)
  | _ => parseNumMag cs

/-- Strip an expected literal character sequence from the input. -/
def stripLit : List Char → List Char → Option (List Char)
  | [], input => some input
  | want :: wants, c :: more => if c = want then stripLit wants more else none
  | _ :: _, [] => none

mutual

/-- Parse one JSON value (fuel-indexed recursive descent, dispatching on
the first significant character). -/
def parseVal : Nat → List Char → Option (Json × List Char)
  | 0, _ => none
  | Nat.succ fuel, cs =>
    match skipWs cs with
    | [] => none
    | c :: more =>
      if c = 'n' then
        (stripLit ['u', 'l', 'l'] more).map fun after => (Json.null, after)
      else if c = 't' then
        (stripLit ['r', 'u', 'e'] more).map fun after => (Json.bool true, after)
      else if c = 'f' then
        (stripLit ['a', 'l', 's', 'e'] more).map fun after => (Json.bool false, after)
      else if c = '"' then
        (parseJString more).map fun found => (Json.str (String.mk found.1), found.2)
      else if c = '[' then
        match skipWs more with
        | ']' :: after => some (Json.arr [], after)
        | body => (parseElems fuel body).map fun found => (Json.arr found.1, found.2)
      else if c = '\x7b' then
        match skipWs more with
        | '\x7d' :: after => some (Json.obj [], after)
        | body => (parseMembers fuel body).map fun found => (Json.obj found.1, found.2)
      else
        (parseNumber (c :: more)).map fun found => (Json.num found.1, found.2)

/-- Parse the elements of a non-empty JSON array, up to and including the
closing bracket. -/
def parseElems : Nat → List Char → Option (List Json × List Char)
  | 0, _ => none
  | Nat.succ fuel, cs =>
    match parseVal fuel cs with
    | none => none
    | some (v, rest) =>
      match skipWs rest with
      | ',' :: more => (parseElems fuel more).map fun found => (v :: found.1, found.2)
      | ']' :: more => some ([v], more)
      | _ => none

/-- Parse the members of a non-empty JSON object, up to and including the
closing brace. -/
def parseMembers : Nat → List Char → Option (List (String × Json) × List Char)
  | 0, _ => none
  | Nat.succ fuel, cs =>
    match skipWs cs with
    | '"' :: afterQuote =>
      match parseJString afterQuote with
      | none => none
      | some (keyChars, afterKey) =>
        match skipWs afterKey with
        | ':' :: afterColon =>
          match parseVal fuel afterColon with
          | none => none
          | some (v, afterVal) =>
            match skipWs afterVal with
            | ',' :: more =>
              (parseMembers fuel more).map fun found =>
                ((String.mk keyChars, v) :: found.1, found.2)
            | '\x7d' :: more => some ([(String.mk keyChars, v)], more)
            | _ => none
        | _ => none
    | _ => none

end

/-- Model of `serde_json::from_str::<Value>`: parse a complete JSON
document, requiring the whole input to be consumed. -/
def Json.parse (s : String) : Option Json :=
  match parseVal (2 * s.length + 8) s.data with
  | none => none
  | some (v, rest) => if (skipWs rest).isEmpty then some v else none

/-! ### Content-part data model (`core/src/types/threads.rs`) -/

/-- The `MessageContentType` enum of `threads.rs`. -/
inductive MessageContentType where
  | Text
  | ImageUrl
  | InputAudio
deriving DecidableEq

/-- The `Display` implementation for `MessageContentType`. -/
def MessageContentType.toStr : MessageContentType → String
  | MessageContentType.Text => "Text"
  | MessageContentType.ImageUrl => "ImageUrl"
  | MessageContentType.InputAudio => "InputAudio"

/-- The derived serde `Deserialize` for `MessageContentType`: a unit-only
enum deserializes from its variant-name string. -/
def MessageContentType.fromJson : Json → Option MessageContentType
  | Json.str "Text" => some MessageContentType.Text
  | Json.str "ImageUrl" => some MessageContentType.ImageUrl
  | Json.str "InputAudio" => some MessageContentType.InputAudio
  | _ => none

/-- The `ImageDetail` enum of `threads.rs`. -/
inductive ImageDetail where
  | Auto
  | Low
  | High
deriving DecidableEq

/-- Derived serde serialization of `ImageDetail` (variant-name string). -/
def ImageDetail.toJson : ImageDetail → Json
  | ImageDetail.Auto => Json.str "Auto"
  | ImageDetail.Low => Json.str "Low"
  | ImageDetail.High => Json.str "High"

/-- Derived serde deserialization of `ImageDetail`. -/
def ImageDetail.fromJson : Json → Option ImageDetail
  | Json.str "Auto" => some ImageDetail.Auto
  | Json.str "Low" => some ImageDetail.Low
  | Json.str "High" => some ImageDetail.High
  | _ => none

/-- The `AudioFormat` enum of `threads.rs`. -/
inductive AudioFormat where
  | Mp3
  | Wav
deriving DecidableEq

/-- Derived serde serialization of `AudioFormat` (variant-name string). -/
def AudioFormat.toStr : AudioFormat → String
  | AudioFormat.Mp3 => "Mp3"
  | AudioFormat.Wav => "Wav"

/-- Derived serde deserialization of `AudioFormat`. -/
def AudioFormat.fromJson : Json → Option AudioFormat
  | Json.str "Mp3" => some AudioFormat.Mp3
  | Json.str "Wav" => some AudioFormat.Wav
  | _ => none

/-- The `AudioDetail` struct of `threads.rs`; its single field is named
`type` on the wire (`r#type`). -/
structure AudioDetail where
  type : AudioFormat
deriving DecidableEq

/-- Derived serde serialization of `AudioDetail`. -/
def AudioDetail.toJson (a : AudioDetail) : Json :=
  Json.obj [("type", Json.str a.type.toStr)]

/-- Derived serde deserialization of `AudioDetail`: the required `type`
field must hold an `AudioFormat`; unknown fields are ignored (serde
default). -/
def AudioDetail.fromJson (j : Json) : Option AudioDetail :=
  match j with
  | Json.obj members =>
    match lookupPairs members "type" with
    | some v =>
      match AudioFormat.fromJson v with
      | some f => some { type := f }
      | none => none
    | none => none
  | _ => none

/-- The untagged `MessageContentPartOptions` enum of `threads.rs`. -/
inductive MessageContentPartOptions where
  | Image (detail : ImageDetail)
  | Audio (detail : AudioDetail)
deriving DecidableEq

/-- Untagged serde serialization: the variant payload serializes as
itself. -/
def MessageContentPartOptions.toJson : MessageContentPartOptions → Json
  | MessageContentPartOptions.Image d => d.toJson
  | MessageContentPartOptions.Audio a => a.toJson

/-- Untagged serde deserialization: variants are tried in declaration
order, `Image` first, then `Audio`. -/
def MessageContentPartOptions.fromJson (j : Json) : Option MessageContentPartOptions :=
  match ImageDetail.fromJson j with
  | some d => some (MessageContentPartOptions.Image d)
  | none =>
    match AudioDetail.fromJson j with
    | some a => some (MessageContentPartOptions.Audio a)
    | none => none

/-- Modelled from the spec: the `CacheControl` type lives in
`core/src/types/gateway.rs`, which is not among the provided sources.  The
spec describes it as an opaque structured caching hint, for example
ephemeral with a TTL, and the repository tests decode
`("type" = "ephemeral", "ttl" = "5m")` successfully while an object of a
different shape is rejected.  Modelled as the `ephemeral` hint with an
optional TTL string. -/
structure CacheControl where
  ttl : Option String
deriving DecidableEq

/-- Modelled from the spec: deserialization of the missing `CacheControl`
type — an object whose `type` tag is `"ephemeral"` with an optional string
`ttl`; anything else fails. -/
def CacheControl.fromJson (j : Json) : Option CacheControl :=
  match j.lookup "type" with
  | some (Json.str "ephemeral") =>
    match j.lookup "ttl" with
    | none => some { ttl := none }
    | some Json.null => some { ttl := none }
    | some (Json.str s) => some { ttl := some s }
    | some _ => none
  | _ => none

/-- The `MessageContentPart` struct of `threads.rs`. -/
structure MessageContentPart where
  type : MessageContentType
  value : String
  additional_options : Option MessageContentPartOptions
  cache_control : Option CacheControl
deriving DecidableEq

/-- Decode errors of the content-part codec and the message deserializer.
`invalidLength idx` models `serde::de::Error::invalid_length(idx, ..)`;
every other serde error is collapsed into `invalidValue` with a message. -/
inductive DecodeError where
  | invalidLength (idx : Nat)
  | invalidValue (msg : String)
deriving DecidableEq

/-- Result of `Except.isOk` as a Bool, for stating success or failure. -/
def isOkE {ε α : Type} : Except ε α → Bool
  | Except.ok _ => true
  | Except.error _ => false

/-- Element 2 of the positional form: `Option<MessageContentPartOptions>`,
null maps to `None`, otherwise the untagged options must parse. -/
def decodeOptionsElem (j : Json) : Option (Option MessageContentPartOptions) :=
  match j with
  | Json.null => some none
  | j => (MessageContentPartOptions.fromJson j).map some

/-- The lenient fourth-element rule of `visit_seq` (threads.rs lines
144-148): `Some(Value::Null)` gives `None`, any other present value is
decoded best-effort with `.ok()`, failure coerced to `None`. -/
def cacheOfFourth (j : Json) : Option CacheControl :=
  match j with
  | Json.null => none
  | j => CacheControl.fromJson j

/-- The `MessageContentPartVisitor::visit_seq` decoder of `threads.rs`:
positional elements are consumed in order; a missing element among the
first three yields `invalid_length(i)` where `i` is the first missing
position; the optional fourth element is decoded leniently; serde_json
rejects arrays with elements left over after the visitor returns. -/
def MessageContentPart.decode : List Json → Except DecodeError MessageContentPart
  | [] => Except.error (DecodeError.invalidLength 0)
  | j0 :: rest0 =>
    match MessageContentType.fromJson j0 with
    | none => Except.error (DecodeError.invalidValue "invalid content type tag")
    | some t =>
      match rest0 with
      | [] => Except.error (DecodeError.invalidLength 1)
      | j1 :: rest1 =>
        match j1 with
        | Json.str v =>
          match rest1 with
          | [] => Except.error (DecodeError.invalidLength 2)
          | j2 :: rest2 =>
            match decodeOptionsElem j2 with
            | none => Except.error (DecodeError.invalidValue "invalid additional options")
            | some opts =>
              match rest2 with
              | [] =>
                Except.ok { type := t, value := v, additional_options := opts,
                            cache_control := none }
              | j3 :: rest3 =>
                match rest3 with
                | [] =>
                  Except.ok { type := t, value := v, additional_options := opts,
                              cache_control := cacheOfFourth j3 }
                | _ => Except.error (DecodeError.invalidValue "unexpected trailing elements")
        | _ => Except.error (DecodeError.invalidValue "invalid value: expected a string")

/-- Decoding a content part from a JSON value: `deserialize_seq` requires
an array. -/
def MessageContentPart.decodeJson (j : Json) : Except DecodeError MessageContentPart :=
  match j with
  | Json.arr elems => MessageContentPart.decode elems
  | _ => Except.error (DecodeError.invalidValue "invalid type: expected a sequence")

/-- The third element of the encoded form:
`additional_options.map_or(Null, |m| to_value(m).unwrap_or(Null))`. -/
def encodeOptionsElem : Option MessageContentPartOptions → Json
  | none => Json.null
  | some o => o.toJson

/-- The `From<MessageContentPart> for Value` encoder of `threads.rs`
(lines 163-172): always a 3-element array; the cache directive is never
emitted. -/
def MessageContentPart.encode (p : MessageContentPart) : Json :=
  Json.arr [Json.str p.type.toStr, Json.str p.value, encodeOptionsElem p.additional_options]

/-- Holds when the elements present in a too-short positional input all
decode: the kind tag (element 0) is recognized and the value (element 1)
is a string.  Used to state the amended length-error claim. -/
def leadingElemsOk : List Json → Bool
  | [] => true
  | [j0] => (MessageContentType.fromJson j0).isSome
  | j0 :: j1 :: _ => (MessageContentType.fromJson j0).isSome && j1.isString

/-! ### Message record and its custom deserializer -/

/-- Modelled from the spec: the `MessageType` enum lives in
`core/src/types/message.rs`, which is not among the provided sources; the
spec describes it as the role enum with variants Human and AI.  Modelled
with variant-name string (de)serialization. -/
inductive MessageType where
  | Human
  | AI
deriving DecidableEq

/-- Modelled from the spec: deserialization of the missing `MessageType`
role enum from its variant-name string. -/
def MessageType.fromJson : Json → Option MessageType
  | Json.str "Human" => some MessageType.Human
  | Json.str "AI" => some MessageType.AI
  | _ => none

/-- Modelled from the spec: the `ToolCall` type lives in
`core/src/types/gateway.rs`, which is not among the provided sources; the
spec only treats it as an element of an ordered tool-call sequence.
Modelled as an id plus a called function name and arguments string. -/
structure ToolCall where
  id : String
  name : String
  arguments : String
deriving DecidableEq

/-- Modelled from the spec: serde serialization of the missing `ToolCall`
type. -/
def ToolCall.toJson (t : ToolCall) : Json :=
  Json.obj [("id", Json.str t.id), ("name", Json.str t.name),
            ("arguments", Json.str t.arguments)]

/-- Modelled from the spec: serde deserialization of the missing
`ToolCall` type; all three string fields are required. -/
def ToolCall.fromJson (j : Json) : Option ToolCall :=
  match j.lookup "id", j.lookup "name", j.lookup "arguments" with
  | some (Json.str i), some (Json.str n), some (Json.str a) =>
    some { id := i, name := n, arguments := a }
  | _, _, _ => none

/-- The `Message` struct of `threads.rs`. -/
structure Message where
  model_name : String
  thread_id : Option String
  user_id : String
  content_type : MessageContentType
  content : Option String
  content_array : List MessageContentPart
  type : MessageType
  tool_call_id : Option String
  tool_calls : Option (List ToolCall)
deriving DecidableEq

/-- A required string field of the helper struct. -/
def reqString (j : Json) (key : String) : Except DecodeError String :=
  match j.lookup key with
  | some (Json.str s) => Except.ok s
  | some _ => Except.error (DecodeError.invalidValue key)
  | none => Except.error (DecodeError.invalidValue key)

/-- An `Option<String>` field of the helper struct: missing or null gives
`None`, a string gives `Some`, anything else is a type error. -/
def optString (j : Json) (key : String) : Except DecodeError (Option String) :=
  match j.lookup key with
  | none => Except.ok none
  | some Json.null => Except.ok none
  | some (Json.str s) => Except.ok (some s)
  | some _ => Except.error (DecodeError.invalidValue key)

/-- The required `content_type` field. -/
def reqContentType (j : Json) : Except DecodeError MessageContentType :=
  match j.lookup "content_type" with
  | some v =>
    match MessageContentType.fromJson v with
    | some t => Except.ok t
    | none => Except.error (DecodeError.invalidValue "content_type")
  | none => Except.error (DecodeError.invalidValue "content_type")

/-- The required `type` field (`r#type` in the struct). -/
def reqMessageType (j : Json) : Except DecodeError MessageType :=
  match j.lookup "type" with
  | some v =>
    match MessageType.fromJson v with
    | some t => Except.ok t
    | none => Except.error (DecodeError.invalidValue "type")
  | none => Except.error (DecodeError.invalidValue "type")

/-- The required `content_array` field: a JSON array whose every element
decodes through the positional content-part codec. -/
def reqContentArray (j : Json) : Except DecodeError (List MessageContentPart) :=
  match j.lookup "content_array" with
  | some (Json.arr items) => items.mapM MessageContentPart.decodeJson
  | some _ => Except.error (DecodeError.invalidValue "content_array")
  | none => Except.error (DecodeError.invalidValue "content_array")

/-- The helper struct field `tool_calls: Option<serde_json::Value>`:
missing or null gives `None`, any other value is kept. -/
def toolCallsValueField (j : Json) : Option Json :=
  match j.lookup "tool_calls" with
  | none => none
  | some Json.null => none
  | some v => some v

/-- Model of `serde_json::from_value::<Vec<ToolCall>>(v).ok()`: the value
must be an array whose every element parses as a tool call. -/
def parseToolCallList (j : Json) : Option (List ToolCall) :=
  match j with
  | Json.arr elems => elems.mapM ToolCall.fromJson
  | _ => none

/-- The first tool-calls normalization stage of the custom `Message`
deserializer (threads.rs lines 65-69): an embedded JSON string is parsed
as `Option<Value>` (hard failure on invalid JSON, `"null"` giving `None`),
a native array is kept as is, anything else becomes `None`. -/
def normalizeToolCalls (field : Option Json) : Except DecodeError (Option Json) :=
  match field with
  | some (Json.str s) =>
    match Json.parse s with
    | none => Except.error (DecodeError.invalidValue "tool_calls")
    | some Json.null => Except.ok none
    | some v => Except.ok (some v)
  | some (Json.arr elems) => Except.ok (some (Json.arr elems))
  | _ => Except.ok none

/-- Both tool-calls stages combined (threads.rs lines 65-69 and 80):
normalization followed by `and_then(|v| from_value(v).ok())`. -/
def decodeToolCallsField (j : Json) : Except DecodeError (Option (List ToolCall)) :=
  match normalizeToolCalls (toolCallsValueField j) with
  | Except.error e => Except.error e
  | Except.ok v => Except.ok (v.bind parseToolCallList)

/-- The custom `Deserialize` implementation for `Message` (threads.rs
lines 45-83): deserialize the helper struct's fields, then normalize the
`tool_calls` value. -/
def Message.deserialize (j : Json) : Except DecodeError Message := do
  let model_name ← reqString j "model_name"
  let thread_id ← optString j "thread_id"
  let user_id ← reqString j "user_id"
  let content_type ← reqContentType j
  let content ← optString j "content"
  let content_array ← reqContentArray j
  let mtype ← reqMessageType j
  let tool_call_id ← optString j "tool_call_id"
  let tool_calls ← decodeToolCallsField j
  Except.ok { model_name := model_name, thread_id := thread_id, user_id := user_id,
              content_type := content_type, content := content,
              content_array := content_array, type := mtype,
              tool_call_id := tool_call_id, tool_calls := tool_calls }

/-- The untagged `InnerMessage` enum of `threads.rs`. -/
inductive InnerMessage where
  | Text (s : String)
  | Array (parts : List MessageContentPart)
deriving DecidableEq

/-- The `From<Message> for InnerMessage` conversion (threads.rs lines
94-101): dispatch on `content_array.len()`. -/
def InnerMessage.ofMessage (m : Message) : InnerMessage :=
  match m.content_array.length with
  | 0 => InnerMessage.Text (m.content.getD "")
  | _ + 1 => InnerMessage.Array m.content_array

/-! ### Executor (`core/src/executor/chat_completion/basic_executor.rs`) -/

/-- Modelled from the spec: `ModelUsage` lives in `core/src/model/types.rs`,
which is not among the provided sources; field names and their uses are
those visible in `basic_executor.rs` (input, output and total token
counts, per-category detail, cache-hit flag).  Token counters are
modelled as naturals and the opaque detail breakdowns as optional JSON. -/
structure ModelUsage where
  input_tokens : Nat
  output_tokens : Nat
  total_tokens : Nat
  prompt_tokens_details : Option Json
  completion_tokens_details : Option Json
  is_cache_used : Bool

/-- Modelled from the spec: the `LLMFinishEvent` of `core/src/model/types.rs`
(not among the provided sources); only its optional `usage` record is read
by the executor. -/
structure LLMFinishEvent where
  usage : Option ModelUsage

/-- Modelled from the spec: the `ToolStartEvent` of
`core/src/model/types.rs` (not among the provided sources); the executor
discards it. -/
structure ToolStartEvent where
  tool_name : String

/-- The join outcome of the background usage task
(`FinishEventHandle`). -/
def JoinOutcome : Type :=
  Option LLMFinishEvent × Option (List ToolStartEvent)

/-- Modelled from the spec: the `ChatCompletionMessage` of
`core/src/types/gateway.rs` (not among the provided sources); the executor
reads its optional content (via `as_string`) and optional tool-call
list. -/
structure ChatCompletionMessage where
  content : Option String
  tool_calls : Option (List ToolCall)

/-- The provider response consumed by `execute`: the final message plus
the provider-reported finish reason (`response.finish_reason()`), as a
string. -/
structure InvokeResponse where
  message : ChatCompletionMessage
  finish_reason : String

/-- The `ChatCompletionUsage` shape assembled by `execute`; `cost` is an
f64 in the source, modelled as a rational. -/
structure ChatCompletionUsage where
  prompt_tokens : Int
  completion_tokens : Int
  total_tokens : Int
  prompt_tokens_details : Option Json
  completion_tokens_details : Option Json
  cost : Rat

/-- `ChatCompletionUsage::default()`: zero counters, no details, zero
cost. -/
def ChatCompletionUsage.default : ChatCompletionUsage :=
  { prompt_tokens := 0, completion_tokens := 0, total_tokens := 0,
    prompt_tokens_details := none, completion_tokens_details := none, cost := 0 }

/-- One choice of the assembled response. -/
structure ChatCompletionChoice where
  index : Nat
  message : ChatCompletionMessage
  finish_reason : Option String

/-- The assembled `ChatCompletionResponse`. -/
structure ChatCompletionResponse where
  id : String
  object : String
  created : Int
  model : String
  choices : List ChatCompletionChoice
  usage : ChatCompletionUsage
  is_cache_used : Option Bool

/-- The `GatewayError` wrapped by the empty-response failure
(`GatewayError::CustomError`). -/
inductive GatewayError where
  | customError (msg : String)
deriving DecidableEq

/-- The executor error type: either a wrapped gateway error or the mapped
model-invocation failure. -/
inductive GatewayApiError where
  | gatewayError (e : GatewayError)
  | invocationError (msg : String)
deriving DecidableEq

/-- The `Model` metadata of `core/src/types/engine.rs` as used for the
response label: provider name and model name. -/
structure Model where
  provider_name : String
  name : String

/-- The usage record available to the aggregation step: the joined
handle's finish event (a missing handle yields `(None, None)`), then
`u.and_then(|u| u.usage)`. -/
def usageRecord (handle : Option JoinOutcome) : Option ModelUsage :=
  (match handle with
   | some res => res.1
   | none => none).bind LLMFinishEvent.usage

/-- The pure tail of `execute` (basic_executor.rs lines 60-122): the
model-invocation result (already mapped through `record_map_err`) is
propagated on failure; the finish reason is resolved from
`(tool_calls, content)` of the final message; the usage summary is
aggregated from the joined background task; the response is assembled
with a fresh id and the current timestamp, both passed as parameters
because they are drawn from the environment. -/
def execute (invokeResult : Except GatewayApiError InvokeResponse)
    (handle : Option JoinOutcome) (requestModel : String)
    (modelMetadata : Option Model) (freshId : String) (createdAt : Int) :
    Except GatewayApiError ChatCompletionResponse :=
  match invokeResult with
  | Except.error e => Except.error e
  | Except.ok response =>
    let finishResolved : Except GatewayApiError String :=
      match response.message.tool_calls, response.message.content with
      | some _, _ => Except.ok "tool_calls"
      | none, some _ => Except.ok response.finish_reason
      | none, none =>
        Except.error (GatewayApiError.gatewayError
          (GatewayError.customError "No content in response"))
    match finishResolved with
    | Except.error e => Except.error e
    | Except.ok finish_reason =>
      let model_usage := usageRecord handle
      let is_cache_used := model_usage.map ModelUsage.is_cache_used
      let usage : ChatCompletionUsage :=
        match model_usage with
        | some mu =>
          { prompt_tokens := (mu.input_tokens : Int),
            completion_tokens := (mu.output_tokens : Int),
            total_tokens := (mu.total_tokens : Int),
            prompt_tokens_details := mu.prompt_tokens_details,
            completion_tokens_details := mu.completion_tokens_details,
            cost := 0 }
        | none => ChatCompletionUsage.default
      Except.ok
        { id := freshId, object := "chat.completion", created := createdAt,
          model :=
            (match modelMetadata with
             | some m => m.provider_name ++ "/" ++ m.name
             | none => requestModel),
          choices := [{ index := 0, message := response.message,
                        finish_reason := some finish_reason }],
          usage := usage, is_cache_used := is_cache_used }

/-! ### Event relay (basic_executor.rs lines 50-58)

The relay task receives events from the internal bounded mpsc channel and,
for each one, first sends it to the cache events sink when configured and
then to the outbound sink, before receiving the next event.  A tokio mpsc
channel is FIFO, so the sequence of events received equals the sequence
produced; the relay is modelled as a fold over that sequence producing the
trace of sink deliveries in order. -/

/-- Destination tag of one delivery performed by the relay. -/
inductive SinkTag where
  | cacheSink
  | outSink
deriving DecidableEq

/-- The deliveries the relay loop body performs for one event:
cache sink first (when configured), then the outbound sink. -/
def relayStep {α : Type} (cacheConfigured : Bool) (e : α) : List (SinkTag × α) :=
  (if cacheConfigured then [(SinkTag.cacheSink, e)] else []) ++ [(SinkTag.outSink, e)]

/-- The delivery trace of the relay loop over the FIFO sequence of
produced events. -/
def relayTrace {α : Type} (cacheConfigured : Bool) : List α → List (SinkTag × α)
  | [] => []
  | e :: rest => relayStep cacheConfigured e ++ relayTrace cacheConfigured rest

/-- The subsequence of a delivery trace observed by one sink. -/
def sinkView {α : Type} (tag : SinkTag) (trace : List (SinkTag × α)) : List α :=
  trace.filterMap (fun p => if p.1 = tag then some p.2 else none)

/-- Sample wire members of an otherwise-valid message record, used by
concrete witnesses (everything except the `tool_calls` member). -/
def sampleFields : List (String × Json) :=
  [("model_name", Json.str "m"), ("thread_id", Json.null),
   ("user_id", Json.str "u"), ("content_type", Json.str "Text"),
   ("content", Json.str "hi"), ("content_array", Json.arr []),
   ("type", Json.str "Human"), ("tool_call_id", Json.null)]

/-- The message that `sampleFields` (with a null `tool_calls` member)
deserializes to. -/
def sampleMessage : Message :=
  { model_name := "m", thread_id := none, user_id := "u",
    content_type := MessageContentType.Text, content := some "hi",
    content_array := [], type := MessageType.Human,
    tool_call_id := none, tool_calls := none }

/-- A sample tool call used by concrete witnesses. -/
def sampleToolCall : ToolCall :=
  { id := "a", name := "f", arguments := "x" }

/-! ### Helper lemmas -/

/-- A bound computation is not ok when the continuation never is. -/
theorem isOkE_bind_false {α β : Type} (x : Except DecodeError α)
    (f : α → Except DecodeError β) (hf : ∀ a, isOkE (f a) = false) :
    isOkE (x >>= f) = false := by
  cases x with
  | ok a => simpa [Bind.bind, Except.bind] using hf a
  | error e => simp [Bind.bind, Except.bind, isOkE]

/-- Inversion of a successful bound computation. -/
theorem bind_eq_ok {α β : Type} {x : Except DecodeError α}
    {f : α → Except DecodeError β} {b : β} (h : x >>= f = Except.ok b) :
    ∃ a, x = Except.ok a ∧ f a = Except.ok b := by
  cases x with
  | ok a => exact ⟨a, rfl, by simpa [Bind.bind, Except.bind] using h⟩
  | error e => simp [Bind.bind, Except.bind] at h

/-- A tool call survives the round trip through its JSON form. -/
theorem toolCall_fromJson_toJson (t : ToolCall) :
    ToolCall.fromJson (ToolCall.toJson t) = some t := rfl

/-- A list of tool calls survives the round trip through its JSON array
form. -/
theorem toolCallList_roundtrip (L : List ToolCall) :
    (L.map ToolCall.toJson).mapM ToolCall.fromJson = some L := by
  induction L with
  | nil => rfl
  | cons t rest ih =>
    rw [List.map_cons, List.mapM_cons, toolCall_fromJson_toJson, ih]
    rfl

/-- Accumulator form of the tool-call list round trip, matching the
`List.mapM.loop` normal form. -/
theorem toolCallList_roundtrip_loop (L : List ToolCall) (acc : List ToolCall) :
    List.mapM.loop ToolCall.fromJson (L.map ToolCall.toJson) acc
      = some (acc.reverse ++ L) := by
  induction L generalizing acc with
  | nil => simp [List.mapM.loop]
  | cons t rest ih => simp [List.mapM.loop, toolCall_fromJson_toJson, ih]

/-- Two message records that differ only in the value stored under the
`tool_calls` key agree on every other field lookup. -/
theorem lookup_other_key (a b : Json) (fs : List (String × Json)) (k : String)
    (hk : "tool_calls" ≠ k) :
    (Json.obj (("tool_calls", a) :: fs)).lookup k
      = (Json.obj (("tool_calls", b) :: fs)).lookup k := by
  simp [Json.lookup, lookupPairs, hk]

/-- Message deserialization only depends on the `tool_calls` member
through `decodeToolCallsField`: if that stage agrees on two records that
differ only in the `tool_calls` value, the whole deserialization
agrees. -/
theorem deserialize_toolcalls_congr (fs : List (String × Json)) (a b : Json)
    (hab : decodeToolCallsField (Json.obj (("tool_calls", a) :: fs))
         = decodeToolCallsField (Json.obj (("tool_calls", b) :: fs))) :
    Message.deserialize (Json.obj (("tool_calls", a) :: fs))
      = Message.deserialize (Json.obj (("tool_calls", b) :: fs)) := by
  have h1 : reqString (Json.obj (("tool_calls", a) :: fs)) "model_name"
      = reqString (Json.obj (("tool_calls", b) :: fs)) "model_name" := by
    unfold reqString; rw [lookup_other_key a b fs _ (by decide)]
  have h2 : optString (Json.obj (("tool_calls", a) :: fs)) "thread_id"
      = optString (Json.obj (("tool_calls", b) :: fs)) "thread_id" := by
    unfold optString; rw [lookup_other_key a b fs _ (by decide)]
  have h3 : reqString (Json.obj (("tool_calls", a) :: fs)) "user_id"
      = reqString (Json.obj (("tool_calls", b) :: fs)) "user_id" := by
    unfold reqString; rw [lookup_other_key a b fs _ (by decide)]
  have h4 : reqContentType (Json.obj (("tool_calls", a) :: fs))
      = reqContentType (Json.obj (("tool_calls", b) :: fs)) := by
    unfold reqContentType; rw [lookup_other_key a b fs _ (by decide)]
  have h5 : optString (Json.obj (("tool_calls", a) :: fs)) "content"
      = optString (Json.obj (("tool_calls", b) :: fs)) "content" := by
    unfold optString; rw [lookup_other_key a b fs _ (by decide)]
  have h6 : reqContentArray (Json.obj (("tool_calls", a) :: fs))
      = reqContentArray (Json.obj (("tool_calls", b) :: fs)) := by
    unfold reqContentArray; rw [lookup_other_key a b fs _ (by decide)]
  have h7 : reqMessageType (Json.obj (("tool_calls", a) :: fs))
      = reqMessageType (Json.obj (("tool_calls", b) :: fs)) := by
    unfold reqMessageType; rw [lookup_other_key a b fs _ (by decide)]
  have h8 : optString (Json.obj (("tool_calls", a) :: fs)) "tool_call_id"
      = optString (Json.obj (("tool_calls", b) :: fs)) "tool_call_id" := by
    unfold optString; rw [lookup_other_key a b fs _ (by decide)]
  unfold Message.deserialize
  simp only [h1, h2, h3, h4, h5, h6, h7, h8, hab]

/-- When the tool-calls stage fails, the whole message deserialization
fails, whatever the other fields hold. -/
theorem deserialize_fails_of_toolcalls_error (j : Json) (e : DecodeError)
    (h : decodeToolCallsField j = Except.error e) :
    isOkE (Message.deserialize j) = false := by
  unfold Message.deserialize
  refine isOkE_bind_false _ _ (fun a1 => ?_)
  refine isOkE_bind_false _ _ (fun a2 => ?_)
  refine isOkE_bind_false _ _ (fun a3 => ?_)
  refine isOkE_bind_false _ _ (fun a4 => ?_)
  refine isOkE_bind_false _ _ (fun a5 => ?_)
  refine isOkE_bind_false _ _ (fun a6 => ?_)
  refine isOkE_bind_false _ _ (fun a7 => ?_)
  refine isOkE_bind_false _ _ (fun a8 => ?_)
  simp [h, Bind.bind, Except.bind, isOkE]

/-- Extraction: a successfully deserialized message carries exactly the
tool calls produced by the tool-calls stage. -/
theorem deserialize_ok_tool_calls {j : Json} {m : Message}
    (h : Message.deserialize j = Except.ok m) :
    decodeToolCallsField j = Except.ok m.tool_calls := by
  unfold Message.deserialize at h
  obtain ⟨a1, -, h⟩ := bind_eq_ok h
  obtain ⟨a2, -, h⟩ := bind_eq_ok h
  obtain ⟨a3, -, h⟩ := bind_eq_ok h
  obtain ⟨a4, -, h⟩ := bind_eq_ok h
  obtain ⟨a5, -, h⟩ := bind_eq_ok h
  obtain ⟨a6, -, h⟩ := bind_eq_ok h
  obtain ⟨a7, -, h⟩ := bind_eq_ok h
  obtain ⟨a8, -, h⟩ := bind_eq_ok h
  obtain ⟨tc, htc, hmk⟩ := bind_eq_ok h
  cases Except.ok.inj hmk
  exact htc

/-! ### Claim theorems -/

/-- C2: for every ContentPart without a cache directive, decoding the
encoded positional-array form yields exactly the original part:
`decode (encode x) = ok x`. -/
theorem contentPart_roundtrip_no_cache (x : MessageContentPart)
    (h : x.cache_control = none) :
    MessageContentPart.decodeJson (MessageContentPart.encode x) = Except.ok x := by
  obtain ⟨t, v, o, cc⟩ := x
  have h' : cc = none := h
  subst h'
  cases t <;> rcases o with _ | ((_ | _ | _) | ⟨_ | _⟩) <;> rfl

/-- C2 witness: a concrete text part without a cache directive round
trips. -/
theorem contentPart_roundtrip_no_cache_witness :
    MessageContentPart.decodeJson
        (MessageContentPart.encode
          { type := MessageContentType.Text, value := "Hello world",
            additional_options := none, cache_control := none })
      = Except.ok
          { type := MessageContentType.Text, value := "Hello world",
            additional_options := none, cache_control := none } :=
  contentPart_roundtrip_no_cache
    { type := MessageContentType.Text, value := "Hello world",
      additional_options := none, cache_control := none } rfl

/-- C3: for every ContentPart with a cache directive, the encoded form is
a 3-element array omitting the directive, and the decode of that encoding
recovers every field except the cache directive, which becomes `None`;
in particular the round trip does not return the original part. -/
theorem contentPart_encode_loses_cache (x : MessageContentPart) (c : CacheControl)
    (h : x.cache_control = some c) :
    (MessageContentPart.encode x).arrayLength = some 3
    ∧ MessageContentPart.decodeJson (MessageContentPart.encode x)
        = Except.ok { type := x.type, value := x.value,
                      additional_options := x.additional_options,
                      cache_control := none }
    ∧ MessageContentPart.decodeJson (MessageContentPart.encode x) ≠ Except.ok x := by
  obtain ⟨t, v, o, cc⟩ := x
  have h' : cc = some c := h
  subst h'
  have hdec : MessageContentPart.decodeJson
      (MessageContentPart.encode
        { type := t, value := v, additional_options := o, cache_control := some c })
      = Except.ok { type := t, value := v, additional_options := o,
                    cache_control := none } := by
    cases t <;> rcases o with _ | ((_ | _ | _) | ⟨_ | _⟩) <;> rfl
  refine ⟨rfl, hdec, fun hbad => ?_⟩
  have heq : ({ type := t, value := v, additional_options := o,
                cache_control := none } : MessageContentPart)
      = { type := t, value := v, additional_options := o, cache_control := some c } :=
    Except.ok.inj (hdec.symm.trans hbad)
  simp at heq

/-- C3 witness: a concrete part with an ephemeral cache directive encodes
to a 3-element array and decodes back without the directive. -/
theorem contentPart_encode_loses_cache_witness :
    (MessageContentPart.encode
        { type := MessageContentType.Text, value := "Hello world",
          additional_options := none,
          cache_control := some { ttl := some "5m" } }).arrayLength = some 3
    ∧ MessageContentPart.decodeJson
        (MessageContentPart.encode
          { type := MessageContentType.Text, value := "Hello world",
            additional_options := none,
            cache_control := some { ttl := some "5m" } })
      = Except.ok
          { type := MessageContentType.Text, value := "Hello world",
            additional_options := none, cache_control := none }
    ∧ MessageContentPart.decodeJson
        (MessageContentPart.encode
          { type := MessageContentType.Text, value := "Hello world",
            additional_options := none,
            cache_control := some { ttl := some "5m" } })
      ≠ Except.ok
          { type := MessageContentType.Text, value := "Hello world",
            additional_options := none,
            cache_control := some { ttl := some "5m" } } :=
  contentPart_encode_loses_cache
    { type := MessageContentType.Text, value := "Hello world",
      additional_options := none, cache_control := some { ttl := some "5m" } }
    { ttl := some "5m" } rfl

/-- C4 counterexample: a 1-element positional input whose only element is
not a recognized kind tag makes decode fail, but with a value error and
not with `InvalidLength` at the input's length, refuting the claim that
every short input fails with `InvalidLength(length)`. -/
theorem contentPart_short_decode_cex :
    [Json.bool true].length < 3
    ∧ MessageContentPart.decode [Json.bool true]
        = Except.error (DecodeError.invalidValue "invalid content type tag")
    ∧ MessageContentPart.decode [Json.bool true]
        ≠ Except.error (DecodeError.invalidLength 1) := by
  refine ⟨by decide, rfl, fun h => ?_⟩
  exact absurd (Except.error.inj h) (by decide)

/-- C4 amended: decode never succeeds on a positional input with fewer
than 3 elements; when every element that is present itself decodes (the
kind tag is recognized and the value is a string), the failure is
`InvalidLength` at the input's length, the first missing position. -/
theorem contentPart_short_decode_amended (xs : List Json) (h : xs.length < 3) :
    isOkE (MessageContentPart.decode xs) = false
    ∧ (leadingElemsOk xs = true →
        MessageContentPart.decode xs
          = Except.error (DecodeError.invalidLength xs.length)) := by
  match xs with
  | [] => exact ⟨rfl, fun _ => rfl⟩
  | [j0] =>
    cases hk : MessageContentType.fromJson j0 <;>
      simp [MessageContentPart.decode, hk, leadingElemsOk, isOkE]
  | [j0, j1] =>
    cases hk : MessageContentType.fromJson j0 <;> cases j1 <;>
      simp [MessageContentPart.decode, hk, leadingElemsOk, isOkE, Json.isString]
  | j0 :: j1 :: j2 :: rest =>
    simp only [List.length_cons] at h
    omega

/-- C4 amended witness: `decode(["Text"])` fails with `InvalidLength 1`. -/
theorem contentPart_short_decode_amended_witness :
    isOkE (MessageContentPart.decode [Json.str "Text"]) = false
    ∧ MessageContentPart.decode [Json.str "Text"]
        = Except.error (DecodeError.invalidLength 1) := by
  have h := contentPart_short_decode_amended [Json.str "Text"] (by decide)
  exact ⟨h.1, h.2 rfl⟩

/-- C5: for every 4-element positional input whose first three elements
decode successfully, decode succeeds whatever the fourth element holds,
and the decoded cache directive follows the lenient fourth-element rule:
`None` for null (and for unparseable values, since `cacheOfFourth` is
best-effort parsing), `Some` for parseable values; the 3-element form
itself decodes with no cache directive. -/
theorem contentPart_fourth_element_lenient (j0 j1 j2 j3 : Json)
    (p : MessageContentPart)
    (h : MessageContentPart.decode [j0, j1, j2] = Except.ok p) :
    MessageContentPart.decode [j0, j1, j2, j3]
      = Except.ok { type := p.type, value := p.value,
                    additional_options := p.additional_options,
                    cache_control := cacheOfFourth j3 }
    ∧ isOkE (MessageContentPart.decode [j0, j1, j2, j3]) = true
    ∧ p.cache_control = none
    ∧ cacheOfFourth Json.null = none := by
  cases hk : MessageContentType.fromJson j0 with
  | none => simp [MessageContentPart.decode, hk] at h
  | some t =>
    cases j1 <;> simp only [MessageContentPart.decode, hk] at h ⊢ <;>
      try exact absurd h (by simp)
    cases ho : decodeOptionsElem j2 with
    | none => simp [ho] at h
    | some opts =>
      simp only [ho] at h ⊢
      cases Except.ok.inj h
      exact ⟨rfl, rfl, rfl, rfl⟩

/-- C5 witness: a malformed fourth element (the repository's own test
shape with a bad object) does not fail decode and yields no cache
directive. -/
theorem contentPart_fourth_element_lenient_witness :
    MessageContentPart.decode
        [Json.str "Text", Json.str "Hello world", Json.null,
         Json.obj [("bad", Json.str "shape")]]
      = Except.ok { type := MessageContentType.Text, value := "Hello world",
                    additional_options := none,
                    cache_control := cacheOfFourth (Json.obj [("bad", Json.str "shape")]) }
    ∧ isOkE (MessageContentPart.decode
        [Json.str "Text", Json.str "Hello world", Json.null,
         Json.obj [("bad", Json.str "shape")]]) = true
    ∧ cacheOfFourth (Json.obj [("bad", Json.str "shape")]) = none := by
  have h := contentPart_fourth_element_lenient (Json.str "Text")
    (Json.str "Hello world") Json.null (Json.obj [("bad", Json.str "shape")])
    { type := MessageContentType.Text, value := "Hello world",
      additional_options := none, cache_control := none } rfl
  exact ⟨h.1, h.2.1, rfl⟩

/-- C8: the Message to InnerMessage conversion is the pure function that
returns `Array(content_array)` whenever the content array is non-empty
(discarding `content`), and otherwise `Text(content)` with a present
content and `Text("")` with an absent one. -/
theorem innerMessage_of_message (m : Message) :
    (m.content_array ≠ [] →
      InnerMessage.ofMessage m = InnerMessage.Array m.content_array)
    ∧ (m.content_array = [] →
      InnerMessage.ofMessage m = InnerMessage.Text (m.content.getD ""))
    ∧ (m.content_array = [] → m.content = none →
      InnerMessage.ofMessage m = InnerMessage.Text "") := by
  cases hca : m.content_array with
  | nil =>
    refine ⟨fun hne => absurd rfl hne, fun _ => ?_, fun _ hc => ?_⟩
    · simp [InnerMessage.ofMessage, hca]
    · simp [InnerMessage.ofMessage, hca, hc]
  | cons p rest =>
    exact ⟨fun _ => by simp [InnerMessage.ofMessage, hca],
           fun he => List.noConfusion he, fun he _ => List.noConfusion he⟩

/-- C8 witness: with a non-empty content array the conversion returns the
array and discards the plain content. -/
theorem innerMessage_of_message_witness :
    InnerMessage.ofMessage
        { model_name := "m", thread_id := none, user_id := "u",
          content_type := MessageContentType.Text, content := some "ignored",
          content_array := [{ type := MessageContentType.Text, value := "part",
                              additional_options := none, cache_control := none }],
          type := MessageType.Human, tool_call_id := none, tool_calls := none }
      = InnerMessage.Array
          [{ type := MessageContentType.Text, value := "part",
             additional_options := none, cache_control := none }] :=
  (innerMessage_of_message
    { model_name := "m", thread_id := none, user_id := "u",
      content_type := MessageContentType.Text, content := some "ignored",
      content_array := [{ type := MessageContentType.Text, value := "part",
                          additional_options := none, cache_control := none }],
      type := MessageType.Human, tool_call_id := none, tool_calls := none }).1
    (by simp)

/-- C6: the relay delivers every produced event to the cache sink (when
configured) and to the outbound sink in exactly the production order, the
two deliveries of one event happening before any delivery of the next:
both sink views of the delivery trace equal the produced sequence, and
the trace of `e :: events` is the full delivery block of `e` followed by
the trace of the remaining events. -/
theorem relay_preserves_order {α : Type} (cacheConfigured : Bool)
    (events : List α) (e : α) :
    sinkView SinkTag.outSink (relayTrace cacheConfigured events) = events
    ∧ sinkView SinkTag.cacheSink (relayTrace cacheConfigured events)
        = (if cacheConfigured then events else [])
    ∧ relayTrace cacheConfigured (e :: events)
        = relayStep cacheConfigured e ++ relayTrace cacheConfigured events := by
  refine ⟨?_, ?_, rfl⟩ <;>
    induction events with
    | nil => cases cacheConfigured <;> rfl
    | cons x rest ih =>
      cases cacheConfigured <;>
        simpa [relayTrace, relayStep, sinkView] using ih

/-- C1: in `execute`, the finish reason is a total function of
`(tool_calls, content)` of the final message: a present tool-call list
forces the string \x22tool_calls\x22 whatever the content; with no tool calls
and present content the provider-reported finish reason is used; and the
execution fails with the `CustomError` carrying the text
\x22No content in response\x22 exactly when both are absent. -/
theorem execute_finish_reason_resolution (r : InvokeResponse)
    (h : Option JoinOutcome) (rm : String) (md : Option Model)
    (idv : String) (ts : Int) :
    (r.message.tool_calls.isSome = true →
      (execute (Except.ok r) h rm md idv ts).map
          (fun resp => resp.choices.map ChatCompletionChoice.finish_reason)
        = Except.ok [some "tool_calls"])
    ∧ (r.message.tool_calls = none → r.message.content.isSome = true →
      (execute (Except.ok r) h rm md idv ts).map
          (fun resp => resp.choices.map ChatCompletionChoice.finish_reason)
        = Except.ok [some r.finish_reason])
    ∧ (execute (Except.ok r) h rm md idv ts
        = Except.error (GatewayApiError.gatewayError
            (GatewayError.customError "No content in response"))
      ↔ r.message.tool_calls = none ∧ r.message.content = none) := by
  obtain ⟨⟨c, tc⟩, fr⟩ := r
  cases tc <;> cases c <;>
    simp [execute, Except.map, isOkE]

/-- C1 witness: at a concrete response carrying both a tool-call list and
content, the resolved finish reason is \x22tool_calls\x22. -/
theorem execute_finish_reason_resolution_witness :
    (execute
        (Except.ok { message := { content := some "hello",
                                  tool_calls := some [sampleToolCall] },
                     finish_reason := "stop" })
        none "gpt" none "id0" 0).map
        (fun resp => resp.choices.map ChatCompletionChoice.finish_reason)
      = Except.ok [some "tool_calls"] :=
  (execute_finish_reason_resolution
    { message := { content := some "hello", tool_calls := some [sampleToolCall] },
      finish_reason := "stop" } none "gpt" none "id0" 0).1 rfl

/-- C7: the usage aggregation of `execute` always sets cost to 0 in the
produced usage summary; `is_cache_used` mirrors the usage record's
cache-hit flag when one is available and is `None` otherwise; and with no
usage record available (no handle, or the joined task reported none) the
summary is the all-zero default. -/
theorem execute_usage_aggregation (r : InvokeResponse) (h : Option JoinOutcome)
    (rm : String) (md : Option Model) (idv : String) (ts : Int)
    (hok : isOkE (execute (Except.ok r) h rm md idv ts) = true) :
    (execute (Except.ok r) h rm md idv ts).map
        (fun resp => (resp.usage.cost, resp.is_cache_used))
      = Except.ok (0, (usageRecord h).map ModelUsage.is_cache_used)
    ∧ (usageRecord h = none →
        (execute (Except.ok r) h rm md idv ts).map (fun resp => resp.usage)
          = Except.ok ChatCompletionUsage.default)
    ∧ ChatCompletionUsage.default.prompt_tokens = 0
    ∧ ChatCompletionUsage.default.completion_tokens = 0
    ∧ ChatCompletionUsage.default.total_tokens = 0 := by
  obtain ⟨⟨c, tc⟩, fr⟩ := r
  cases tc with
  | some l =>
    cases c <;> cases hu : usageRecord h <;> simp [execute, Except.map, hu, isOkE, ChatCompletionUsage.default]
  | none =>
    cases c with
    | some cv => cases hu : usageRecord h <;> simp [execute, Except.map, hu, isOkE, ChatCompletionUsage.default]
    | none => exact absurd hok (by simp [execute, isOkE])

/-- C7 witness: with no background handle the summary is all zeros with
zero cost and no cache flag. -/
theorem execute_usage_aggregation_witness :
    (execute (Except.ok { message := { content := some "hi", tool_calls := none },
                          finish_reason := "stop" })
        none "gpt" none "id0" 0).map
        (fun resp => (resp.usage.cost, resp.is_cache_used))
      = Except.ok ((0 : Rat), (none : Option Bool))
    ∧ (execute (Except.ok { message := { content := some "hi", tool_calls := none },
                            finish_reason := "stop" })
        none "gpt" none "id0" 0).map (fun resp => resp.usage)
      = Except.ok ChatCompletionUsage.default := by
  have h := execute_usage_aggregation
    { message := { content := some "hi", tool_calls := none },
      finish_reason := "stop" } none "gpt" none "id0" 0 rfl
  exact ⟨h.1, h.2.1 rfl⟩

/-- C9: a message record whose `tool_calls` member is a JSON string that
parses to the array encoding of a valid tool-call list deserializes to
exactly the same in-memory message as the identical record carrying the
native array, and both yield `Some L`. -/
theorem message_tool_calls_string_eq_array (fs : List (String × Json))
    (s : String) (L : List ToolCall)
    (hp : Json.parse s = some (Json.arr (L.map ToolCall.toJson))) :
    decodeToolCallsField (Json.obj (("tool_calls", Json.str s) :: fs))
      = Except.ok (some L)
    ∧ decodeToolCallsField
        (Json.obj (("tool_calls", Json.arr (L.map ToolCall.toJson)) :: fs))
      = Except.ok (some L)
    ∧ Message.deserialize (Json.obj (("tool_calls", Json.str s) :: fs))
      = Message.deserialize
          (Json.obj (("tool_calls", Json.arr (L.map ToolCall.toJson)) :: fs)) := by
  have h1 : decodeToolCallsField (Json.obj (("tool_calls", Json.str s) :: fs))
      = Except.ok (some L) := by
    unfold decodeToolCallsField toolCallsValueField normalizeToolCalls
    simp [Json.lookup, lookupPairs, hp, parseToolCallList, toolCallList_roundtrip_loop]
  have h2 : decodeToolCallsField
      (Json.obj (("tool_calls", Json.arr (L.map ToolCall.toJson)) :: fs))
      = Except.ok (some L) := by
    unfold decodeToolCallsField toolCallsValueField normalizeToolCalls
    simp [Json.lookup, lookupPairs, parseToolCallList, toolCallList_roundtrip_loop]
  exact ⟨h1, h2, deserialize_toolcalls_congr fs _ _ (h1.trans h2.symm)⟩

/-- C9 witness: the embedded-string and native-array forms of a concrete
one-element tool-call list deserialize to the same message with that
list. -/
theorem message_tool_calls_string_eq_array_witness :
    decodeToolCallsField
        (Json.obj (("tool_calls",
          Json.str "[\x7b\"id\":\"a\",\"name\":\"f\",\"arguments\":\"x\"\x7d]")
          :: sampleFields))
      = Except.ok (some [sampleToolCall])
    ∧ decodeToolCallsField
        (Json.obj (("tool_calls", Json.arr ([sampleToolCall].map ToolCall.toJson))
          :: sampleFields))
      = Except.ok (some [sampleToolCall])
    ∧ Message.deserialize
        (Json.obj (("tool_calls",
          Json.str "[\x7b\"id\":\"a\",\"name\":\"f\",\"arguments\":\"x\"\x7d]")
          :: sampleFields))
      = Message.deserialize
          (Json.obj (("tool_calls", Json.arr ([sampleToolCall].map ToolCall.toJson))
            :: sampleFields)) :=
  message_tool_calls_string_eq_array sampleFields
    "[\x7b\"id\":\"a\",\"name\":\"f\",\"arguments\":\"x\"\x7d]" [sampleToolCall] rfl

/-- C10: malformed `tool_calls` members are handled asymmetrically by
message deserialization: a string member that is not valid JSON fails the
whole record, while a native array whose elements do not parse as tool
calls, and any member that is neither a string nor an array, deserialize
successfully with `tool_calls` silently set to `None` (the same message
as a null member yields). -/
theorem message_tool_calls_malformed_asymmetry (fs : List (String × Json))
    (s : String) (ts : List Json) (v : Json) (m0 : Message)
    (hs : Json.parse s = none)
    (hts : ts.mapM ToolCall.fromJson = (none : Option (List ToolCall)))
    (hv1 : v.isString = false) (hv2 : v.isArray = false)
    (hbase : Message.deserialize (Json.obj (("tool_calls", Json.null) :: fs))
      = Except.ok m0) :
    isOkE (Message.deserialize (Json.obj (("tool_calls", Json.str s) :: fs))) = false
    ∧ Message.deserialize (Json.obj (("tool_calls", Json.arr ts) :: fs))
        = Except.ok m0
    ∧ Message.deserialize (Json.obj (("tool_calls", v) :: fs)) = Except.ok m0
    ∧ m0.tool_calls = none := by
  have hnull : decodeToolCallsField (Json.obj (("tool_calls", Json.null) :: fs))
      = Except.ok none := by
    unfold decodeToolCallsField toolCallsValueField normalizeToolCalls
    simp [Json.lookup, lookupPairs]
  have hstr : decodeToolCallsField (Json.obj (("tool_calls", Json.str s) :: fs))
      = Except.error (DecodeError.invalidValue "tool_calls") := by
    unfold decodeToolCallsField toolCallsValueField normalizeToolCalls
    simp [Json.lookup, lookupPairs, hs]
  have hts' : List.mapM.loop ToolCall.fromJson ts [] = none := hts
  have harr : decodeToolCallsField (Json.obj (("tool_calls", Json.arr ts) :: fs))
      = Except.ok none := by
    unfold decodeToolCallsField toolCallsValueField normalizeToolCalls
    simp [Json.lookup, lookupPairs, parseToolCallList, hts']
  have hvv : decodeToolCallsField (Json.obj (("tool_calls", v) :: fs))
      = Except.ok none := by
    cases v <;>
      simp_all [decodeToolCallsField, toolCallsValueField, normalizeToolCalls,
        Json.lookup, lookupPairs, Json.isString, Json.isArray]
  refine ⟨deserialize_fails_of_toolcalls_error _ _ hstr, ?_, ?_, ?_⟩
  · exact (deserialize_toolcalls_congr fs _ _ (harr.trans hnull.symm)).trans hbase
  · exact (deserialize_toolcalls_congr fs _ _ (hvv.trans hnull.symm)).trans hbase
  · have hx := deserialize_ok_tool_calls hbase
    rw [hnull] at hx
    exact (Except.ok.inj hx).symm

/-- C10 witness: at a concrete otherwise-valid record, the invalid JSON
string \x22not json\x22 fails the whole record, while a bad native array and a
numeric member succeed with no tool calls. -/
theorem message_tool_calls_malformed_asymmetry_witness :
    isOkE (Message.deserialize
        (Json.obj (("tool_calls", Json.str "not json") :: sampleFields))) = false
    ∧ Message.deserialize
        (Json.obj (("tool_calls", Json.arr [Json.bool true]) :: sampleFields))
      = Except.ok sampleMessage
    ∧ Message.deserialize (Json.obj (("tool_calls", Json.num 5) :: sampleFields))
      = Except.ok sampleMessage
    ∧ sampleMessage.tool_calls = none :=
  message_tool_calls_malformed_asymmetry sampleFields "not json" [Json.bool true]
    (Json.num 5) sampleMessage rfl rfl rfl rfl rfl

end AiGateway
